import Mathlib

/-!
A shallow embedding of the DMALibrary crate (src/lib.rs): the query-layer
adapters over the memprocfs backend (`init`, `get_winver`, `find_process`,
`find_base_address`) and the CR3 recovery routine `fix_cr3`.

Backend effects (vfs reads, config writes, module-base resolution) are
modelled as explicit oracle functions; the mutable per-pid DTB override is
passed as explicit state (`Option Nat`, `none` = the pre-call value, still
untouched); the unbounded poll loop takes a fuel argument, `none` meaning
the loop did not reach its break within that fuel.  The lossy UTF-8 decode
of the report bytes (`String.from_utf8_lossy`, which is total and never
fails) is modelled by letting the report oracle yield the decoded text
directly as a `List Char`.
-/

namespace DMALib

/-- Unicode White_Space, exactly the set accepted by Rust
`char::is_whitespace` (used by `str::split_whitespace` when the report
lines are tokenized). -/
def isRustWhitespace (c : Char) : Bool :=
  decide (c.toNat = 0x9 ∨ c.toNat = 0xA ∨ c.toNat = 0xB ∨ c.toNat = 0xC ∨
    c.toNat = 0xD ∨ c.toNat = 0x20 ∨ c.toNat = 0x85 ∨ c.toNat = 0xA0 ∨
    c.toNat = 0x1680 ∨ (0x2000 ≤ c.toNat ∧ c.toNat ≤ 0x200A) ∨
    c.toNat = 0x2028 ∨ c.toNat = 0x2029 ∨ c.toNat = 0x202F ∨
    c.toNat = 0x205F ∨ c.toNat = 0x3000)

/-- Split a character list at every newline character; there is one more
part than there are newlines, and parts do not contain the newline. -/
def splitOnNewline : List Char → List (List Char)
  | [] => [[]]
  | c :: cs =>
    if c = '\n' then [] :: splitOnNewline cs
    else
      match splitOnNewline cs with
      | [] => [[c]]
      | l :: ls => (c :: l) :: ls

/-- Strip a single trailing carriage return, Rust `str::strip_suffix` with
`\r` as applied by `str::lines` to each newline-terminated line. -/
def stripCR (l : List Char) : List Char :=
  if l.getLast? = some '\r' then l.dropLast else l

/-- Rust `str::lines`: lines are the newline-separated parts; every part
that was terminated by a newline has one trailing carriage return removed;
a final unterminated part is kept as-is, except that an empty final part
(the text ended with a newline, or was empty) yields no line. -/
def rustLines (s : List Char) : List (List Char) :=
  let parts := splitOnNewline s
  let last := (parts.getLast?).getD []
  parts.dropLast.map stripCR ++ (if last.isEmpty then [] else [last])

/-- Worker for `splitWhitespace`: accumulates the current token reversed. -/
def splitWhitespaceAux : List Char → List Char → List (List Char)
  | [], acc => if acc.isEmpty then [] else [acc.reverse]
  | c :: cs, acc =>
    if isRustWhitespace c then
      if acc.isEmpty then splitWhitespaceAux cs []
      else acc.reverse :: splitWhitespaceAux cs []
    else splitWhitespaceAux cs (c :: acc)

/-- Rust `str::split_whitespace`: the maximal runs of non-whitespace
characters, in order; never yields an empty token (so the source's
`.filter(|s| !s.is_empty())` is the identity on it). -/
def splitWhitespace (l : List Char) : List (List Char) :=
  splitWhitespaceAux l []

/-- Rust `char::to_digit(16)`: value of one hexadecimal digit. -/
def hexDigitVal (c : Char) : Option Nat :=
  if 48 ≤ c.toNat ∧ c.toNat ≤ 57 then some (c.toNat - 48)
  else if 97 ≤ c.toNat ∧ c.toNat ≤ 102 then some (c.toNat - 97 + 10)
  else if 65 ≤ c.toNat ∧ c.toNat ≤ 70 then some (c.toNat - 65 + 10)
  else none

/-- One more than the largest u64 value. -/
def u64Bound : Nat := 2 ^ 64

/-- Digit-folding loop of `u64::from_str_radix(s, 16)`: each step is
`acc.checked_mul(16)` then `.checked_add(d)`, so it fails on the first
non-hex-digit character and on any step whose result would not fit u64. -/
def parseHexAcc : List Char → Nat → Option Nat
  | [], acc => some acc
  | c :: cs, acc =>
    match hexDigitVal c with
    | none => none
    | some d =>
      if acc * 16 + d < u64Bound then parseHexAcc cs (acc * 16 + d) else none

/-- Rust `u64::from_str_radix(s, 16)`: an optional leading plus sign (a
minus sign is not accepted by an unsigned type), then one or more hex
digits whose accumulated value fits in 64 bits. -/
def from_str_radix_16 (s : List Char) : Option Nat :=
  match s with
  | [] => none
  | c :: cs =>
    if c = '+' then (if cs.isEmpty then none else parseHexAcc cs 0)
    else parseHexAcc (c :: cs) 0

/-- The candidate one report line contributes, if any: the line is
whitespace-tokenized and must match the source pattern
`(Some(_), Some("0"), Some(dtb))` — at least three tokens with the second
exactly "0" — and the third token must parse as a base-16 u64. -/
def lineCandidate (line : List Char) : Option Nat :=
  match splitWhitespace line with
  | _ :: t1 :: t2 :: _ =>
    if t1 = ['0'] then from_str_radix_16 t2 else none
  | _ => none

/-- One iteration of `fix_cr3`'s parsing loop: push the line's candidate
onto the `possible_dtbs` accumulator when the pattern and the hex parse
succeed, otherwise push nothing. -/
def pushCandidate (acc : List Nat) (line : List Char) : List Nat :=
  match lineCandidate line with
  | some v => acc ++ [v]
  | none => acc

/-- The `possible_dtbs` vector built by `fix_cr3`'s parsing loop, running
`pushCandidate` over the report lines in order. -/
def parseCandidates (text : List Char) : List Nat :=
  (rustLines text).foldl pushCandidate []

/-- The composite configuration key `CONFIG_OPT_PROCESS_DTB | pid as u64`
scoping the translation-root override to one pid. -/
def dtbConfigKey (optBase pid : Nat) : Nat :=
  Nat.lor optBase pid

/-- Path of the scan-progress virtual report endpoint read by the poll
loop (3 bytes requested at offset 0). -/
def progressEndpoint : String := "\\misc\\procinfo\\progress_percent.txt"

/-- Path of the DTB report virtual endpoint. -/
def dtbEndpoint : String := "\\misc\\procinfo\\dtb.txt"

/-- Maximum byte count of the dtb.txt read (`0x80000` in the source). -/
def dtbReadMax : Nat := 0x80000

/-- Sleep interval, in milliseconds, between two polls of the progress
endpoint (`thread::sleep(Duration::from_millis(500))`). -/
def pollIntervalMillis : Nat := 500

/-- Whether one read of the progress endpoint satisfies the break
condition of the poll loop: the read succeeded and returned exactly 3
bytes (`if let Ok(p) = … { if p.len() == 3 { break } }`). -/
def pollSuccess (r : Except String (List Nat)) : Bool :=
  match r with
  | Except.ok b => b.length == 3
  | Except.error _ => false

/-- The poll loop of `fix_cr3`, with fuel: `progressRead n` is the outcome
of the n-th read of the progress endpoint; the loop breaks at the first
index whose read succeeds with exactly 3 bytes, sleeping and retrying on
every failed or other-length read; `none` = the fuel ran out before any
read satisfied the break condition (the source has no such bound and
simply never terminates). Returns the index at which the loop broke. -/
def pollLoop (progressRead : Nat → Except String (List Nat)) :
    Nat → Nat → Option Nat
  | 0, _ => none
  | fuel + 1, i =>
    if pollSuccess (progressRead i) then some i
    else pollLoop progressRead fuel (i + 1)

/-- Result of the candidate trial loop: whether a candidate succeeded
(`return Ok(true)` vs falling through to `Ok(false)`), the candidates for
which a `set_config` write was attempted, in order, and the final content
of the per-pid DTB override cell (`none` = never successfully written,
still the pre-call value). -/
structure TrialOutcome where
  found : Bool
  attempted : List Nat
  finalDtb : Option Nat
deriving DecidableEq

/-- The trial loop of `fix_cr3` over the parsed candidates: for each
candidate in order, attempt the config write; if the write fails, skip to
the next candidate; if it succeeds (the override cell now holds this
candidate), probe module resolution and return success immediately when it
resolves, otherwise continue with the next candidate.  `writeOk d` is the
oracle for `set_config(key, d).is_ok()` and `resolves d` the oracle for
`process.get_module_base(target_module).is_ok()` while the override cell
holds `d` (the probe only ever runs right after a successful write). -/
def trialLoop (writeOk resolves : Nat → Bool) :
    List Nat → Option Nat → TrialOutcome
  | [], st => ⟨false, [], st⟩
  | d :: ds, st =>
    if writeOk d then
      if resolves d then ⟨true, [d], some d⟩
      else
        let r := trialLoop writeOk resolves ds (some d)
        ⟨r.found, d :: r.attempted, r.finalDtb⟩
    else
      let r := trialLoop writeOk resolves ds st
      ⟨r.found, d :: r.attempted, r.finalDtb⟩

/-- The value left in the override cell by a run whose write attempts, in
order, were `l`: the last candidate whose write succeeded, or the starting
content `st` when no write succeeded (characterizes `trialLoop`'s final
state; not itself part of the source). -/
def lastWrite (w : Nat → Bool) (l : List Nat) (st : Option Nat) : Option Nat :=
  ((l.filter w).getLast?).elim st some

/-- Backend oracles consumed by `fix_cr3`: the successive progress-endpoint
reads, the one dtb.txt read (already lossily decoded to text), the config
write outcome as a function of (key, value), and module resolution as a
function of the currently written DTB override. -/
structure Cr3Backend where
  progressRead : Nat → Except String (List Nat)
  dtbRead : Except String (List Char)
  setConfigOk : Nat → Nat → Bool
  resolves : Nat → Bool

/-- The per-pid write oracle used in `fix_cr3`'s trial loop: value `d` is
written under the composite key `CONFIG_OPT_PROCESS_DTB | pid`. -/
def writeOkOf (B : Cr3Backend) (optBase pid : Nat) : Nat → Bool :=
  fun d => B.setConfigOk (dtbConfigKey optBase pid) d

/-- `fix_cr3`, instrumented: poll the progress endpoint until a 3-byte
read (or the fuel runs out, outer `none`); then fetch dtb.txt,
propagating its error via `?`; then parse the candidates and run the
trial loop starting from the untouched override cell. -/
def fix_cr3Full (B : Cr3Backend) (optBase pid fuel : Nat) :
    Option (Except String TrialOutcome) :=
  match pollLoop B.progressRead fuel 0 with
  | none => none
  | some _ =>
    match B.dtbRead with
    | Except.error e => some (Except.error e)
    | Except.ok text =>
      some (Except.ok
        (trialLoop (writeOkOf B optBase pid) B.resolves
          (parseCandidates text) none))

/-- The observable return value of `fix_cr3`: `Result<bool, Error>`, with
the outer `Option` the fuel bound on the poll loop. -/
def fix_cr3 (B : Cr3Backend) (optBase pid fuel : Nat) :
    Option (Except String Bool) :=
  (fix_cr3Full B optBase pid fuel).map (fun r => r.map TrialOutcome.found)

/-- Concrete backend for exercising the found case: three report
candidates 0x10, 0x20, 0x30, every write accepted, only 0x20 resolving. -/
def backendFound : Cr3Backend :=
  { progressRead := fun _ => Except.ok [1, 2, 3],
    dtbRead := Except.ok ("1 0 10\n2 0 20\n3 0 30\n".toList),
    setConfigOk := fun _ _ => true,
    resolves := fun d => d == 32 }

/-- Concrete backend for the exhaustion case: candidates 0x10 and 0x20,
only the 0x10 write accepted, nothing resolving. -/
def backendExhaust : Cr3Backend :=
  { progressRead := fun _ => Except.ok [1, 2, 3],
    dtbRead := Except.ok ("1 0 10\n2 0 20\n".toList),
    setConfigOk := fun _ d => d == 16,
    resolves := fun _ => false }

/-- Concrete backend whose report is empty. -/
def backendEmpty : Cr3Backend :=
  { progressRead := fun _ => Except.ok [1, 2, 3],
    dtbRead := Except.ok [],
    setConfigOk := fun _ _ => true,
    resolves := fun _ => true }

/-- Concrete backend whose dtb.txt fetch fails. -/
def backendFetchErr : Cr3Backend :=
  { progressRead := fun _ => Except.ok [1, 2, 3],
    dtbRead := Except.error "io",
    setConfigOk := fun _ _ => true,
    resolves := fun _ => true }

/-- Concrete backend whose first progress read fails before a 3-byte
read arrives. -/
def backendPollErr : Cr3Backend :=
  { progressRead := fun j =>
      if j = 0 then Except.error "x" else Except.ok [1, 2, 3],
    dtbRead := Except.ok [],
    setConfigOk := fun _ _ => true,
    resolves := fun _ => true }

/-- `backendPollErr` with every failed progress read rewritten to a short
(0-byte) successful read, as built in the C9 congruence statement. -/
def backendPollErrPatched : Cr3Backend :=
  { backendPollErr with
    progressRead := fun n =>
      match backendPollErr.progressRead n with
      | Except.error _ => Except.ok []
      | Except.ok b => Except.ok b }

/-- A `VmmProcess` as far as this crate reads it: its pid field. -/
structure VmmProcessH where
  pid : Nat
deriving DecidableEq

/-- `init`: `Vmm::new(vmm_path, args)?` then `Ok(vmm)` — the constructor
outcome (an oracle here) is propagated unchanged. -/
def init {α : Type} (vmmNew : Except String α) : Except String α :=
  match vmmNew with
  | Except.ok vmm => Except.ok vmm
  | Except.error e => Except.error e

/-- `get_winver`: `Ok(vmm.kernel().build().to_string())` — the build
number query is infallible, its decimal rendering is returned as `Ok`. -/
def get_winver (buildNumber : Nat) : Except String String :=
  Except.ok (toString buildNumber)

/-- `find_process`: look the process up by name; on success return its
pid, on failure log and return `None`. -/
def find_process (processFromName : String → Except String VmmProcessH)
    (processName : String) : Option Nat :=
  match processFromName processName with
  | Except.ok process => some process.pid
  | Except.error _ => none

/-- `find_base_address`: resolve the process from its pid, then the
module base inside it; an error at either step yields `None`. -/
def find_base_address (processFromPid : Nat → Except String VmmProcessH)
    (getModuleBase : VmmProcessH → String → Except String Nat)
    (processPid : Nat) (moduleName : String) : Option Nat :=
  match processFromPid processPid with
  | Except.ok process =>
    match getModuleBase process moduleName with
    | Except.ok base => some base
    | Except.error _ => none
  | Except.error _ => none

/-! ### Helper lemmas -/

theorem foldl_pushCandidate_eq_filterMap :
    ∀ (l : List (List Char)) (acc : List Nat),
      l.foldl pushCandidate acc = acc ++ l.filterMap lineCandidate := by
  intro l
  induction l with
  | nil => intro acc; simp
  | cons x xs ih =>
    intro acc
    cases h : lineCandidate x with
    | none => simp [List.foldl_cons, pushCandidate, h, ih]
    | some v => simp [List.foldl_cons, pushCandidate, h, ih]

theorem parseCandidates_eq_filterMap (text : List Char) :
    parseCandidates text = (rustLines text).filterMap lineCandidate := by
  unfold parseCandidates
  simpa using foldl_pushCandidate_eq_filterMap (rustLines text) []

theorem lineCandidate_eq_some_iff (line : List Char) (v : Nat) :
    lineCandidate line = some v ↔
      3 ≤ (splitWhitespace line).length ∧
      (splitWhitespace line)[1]? = some (['0']) ∧
      ((splitWhitespace line)[2]?).bind from_str_radix_16 = some v := by
  unfold lineCandidate
  cases hts : splitWhitespace line with
  | nil => simp
  | cons t0 rest =>
    cases rest with
    | nil => simp
    | cons t1 rest2 =>
      cases rest2 with
      | nil => simp
      | cons t2 rest3 =>
        by_cases h1 : t1 = ['0']
        · subst h1
          simp
        · simp [h1]

theorem getLast?_cons_elim {α : Type} (d : α) (xs : List α) (st : Option α) :
    ((d :: xs).getLast?).elim st some = (xs.getLast?).elim (some d) some := by
  induction xs with
  | nil => simp
  | cons x xs _ =>
    rw [List.getLast?_cons_cons]
    cases h : (x :: xs).getLast? with
    | none =>
      exact absurd (List.getLast?_eq_none_iff.mp h) (List.cons_ne_nil x xs)
    | some y => simp

theorem trialLoop_first_success (w r : Nat → Bool) :
    ∀ (l : List Nat) (st : Option Nat) (k : Nat) (hk : k < l.length),
      w (l.get ⟨k, hk⟩) = true → r (l.get ⟨k, hk⟩) = true →
      (∀ j (hj : j < k),
        ¬(w (l.get ⟨j, hj.trans hk⟩) = true ∧ r (l.get ⟨j, hj.trans hk⟩) = true)) →
      trialLoop w r l st = ⟨true, l.take (k + 1), some (l.get ⟨k, hk⟩)⟩ := by
  intro l
  induction l with
  | nil => intro st k hk; exact absurd hk (Nat.not_lt_zero k)
  | cons d ds ih =>
    intro st k hk hw hr hprev
    cases k with
    | zero =>
      simp only [List.get] at hw hr
      simp [trialLoop, hw, hr, List.get]
    | succ k' =>
      have h0 : ¬(w d = true ∧ r d = true) := by
        have := hprev 0 (Nat.succ_pos k')
        simpa [List.get] using this
      have hk' : k' < ds.length := Nat.lt_of_succ_lt_succ hk
      have hget : (d :: ds).get ⟨k' + 1, hk⟩ = ds.get ⟨k', hk'⟩ := rfl
      have hprev' : ∀ j (hj : j < k'),
          ¬(w (ds.get ⟨j, hj.trans hk'⟩) = true ∧
            r (ds.get ⟨j, hj.trans hk'⟩) = true) := by
        intro j hj
        have := hprev (j + 1) (Nat.succ_lt_succ hj)
        simpa [List.get] using this
      by_cases hwd : w d = true
      · have hrd : r d = false := by
          cases hrv : r d with
          | false => rfl
          | true => exact absurd ⟨hwd, hrv⟩ h0
        have hrec := ih (some d) k' hk' (by rw [hget] at hw; exact hw)
          (by rw [hget] at hr; exact hr) hprev'
        simp [trialLoop, hwd, hrd, hrec, hget, List.take_succ_cons]
      · have hwd' : w d = false := by
          cases hwv : w d with
          | false => rfl
          | true => exact absurd hwv hwd
        have hrec := ih st k' hk' (by rw [hget] at hw; exact hw)
          (by rw [hget] at hr; exact hr) hprev'
        simp [trialLoop, hwd', hrec, hget, List.take_succ_cons]

theorem trialLoop_all_fail (w r : Nat → Bool) :
    ∀ (l : List Nat) (st : Option Nat),
      (∀ d ∈ l, ¬(w d = true ∧ r d = true)) →
      trialLoop w r l st = ⟨false, l, lastWrite w l st⟩ := by
  intro l
  induction l with
  | nil => intro st _; simp [trialLoop, lastWrite]
  | cons d ds ih =>
    intro st hf
    have hd := hf d (List.mem_cons_self d ds)
    have hds : ∀ x ∈ ds, ¬(w x = true ∧ r x = true) := by
      intro x hx
      exact hf x (List.mem_cons_of_mem d hx)
    by_cases hwd : w d = true
    · have hrd : r d = false := by
        cases hrv : r d with
        | false => rfl
        | true => exact absurd ⟨hwd, hrv⟩ hd
      have hlast : lastWrite w (d :: ds) st = lastWrite w ds (some d) := by
        unfold lastWrite
        rw [List.filter_cons_of_pos hwd]
        exact getLast?_cons_elim d (ds.filter w) st
      simp [trialLoop, hwd, hrd, ih (some d) hds, hlast]
    · have hwd' : w d = false := by
        cases hwv : w d with
        | false => rfl
        | true => exact absurd hwv hwd
      have hlast : lastWrite w (d :: ds) st = lastWrite w ds st := by
        unfold lastWrite
        rw [List.filter_cons_of_neg (by simp [hwd'])]
      simp [trialLoop, hwd', ih st hds, hlast]

theorem trialLoop_finalDtb (w r : Nat → Bool) :
    ∀ (l : List Nat) (st : Option Nat),
      (trialLoop w r l st).finalDtb =
        lastWrite w (trialLoop w r l st).attempted st := by
  intro l
  induction l with
  | nil => intro st; simp [trialLoop, lastWrite]
  | cons d ds ih =>
    intro st
    by_cases hwd : w d = true
    · by_cases hrd : r d = true
      · simp [trialLoop, hwd, hrd, lastWrite, List.filter_cons_of_pos hwd]
      · have hrd' : r d = false := by
          cases hrv : r d with
          | false => rfl
          | true => exact absurd hrv hrd
        have hstep : lastWrite w (d :: (trialLoop w r ds (some d)).attempted) st
            = lastWrite w (trialLoop w r ds (some d)).attempted (some d) := by
          unfold lastWrite
          rw [List.filter_cons_of_pos hwd]
          exact getLast?_cons_elim d _ st
        simp [trialLoop, hwd, hrd', hstep, ih (some d)]
    · have hwd' : w d = false := by
        cases hwv : w d with
        | false => rfl
        | true => exact absurd hwv hwd
      have hstep : lastWrite w (d :: (trialLoop w r ds st).attempted) st
          = lastWrite w (trialLoop w r ds st).attempted st := by
        unfold lastWrite
        rw [List.filter_cons_of_neg (by simp [hwd'])]
      simp [trialLoop, hwd', hstep, ih st]

theorem pollLoop_eq_some_iff (pr : Nat → Except String (List Nat)) :
    ∀ (fuel i n : Nat),
      pollLoop pr fuel i = some n ↔
        i ≤ n ∧ n < i + fuel ∧ pollSuccess (pr n) = true ∧
        ∀ m, i ≤ m → m < n → pollSuccess (pr m) = false := by
  intro fuel
  induction fuel with
  | zero =>
    intro i n
    simp only [pollLoop]
    constructor
    · intro h; exact absurd h (by simp)
    · intro ⟨h1, h2, _⟩; omega
  | succ fuel ih =>
    intro i n
    simp only [pollLoop]
    by_cases hs : pollSuccess (pr i) = true
    · simp only [hs, if_true]
      constructor
      · intro h
        have hn : n = i := by
          have := Option.some.inj h; omega
        subst hn
        exact ⟨Nat.le_refl n, by omega, hs, fun m h1 h2 => by omega⟩
      · intro ⟨h1, _, hsn, hall⟩
        have hn : n = i := by
          by_contra hne
          have hlt : i < n := by omega
          have := hall i (Nat.le_refl i) hlt
          rw [this] at hs
          exact Bool.false_ne_true hs
        subst hn; rfl
    · have hs' : pollSuccess (pr i) = false := by
        cases hv : pollSuccess (pr i) with
        | false => rfl
        | true => exact absurd hv hs
      simp only [hs', if_neg Bool.false_ne_true]
      rw [ih (i + 1) n]
      constructor
      · intro ⟨h1, h2, h3, h4⟩
        refine ⟨by omega, by omega, h3, ?_⟩
        intro m hm1 hm2
        by_cases hmi : m = i
        · subst hmi; exact hs'
        · exact h4 m (by omega) hm2
      · intro ⟨h1, h2, h3, h4⟩
        have hni : n ≠ i := by
          intro hni
          rw [hni] at h3
          rw [h3] at hs'
          exact Bool.noConfusion hs'
        exact ⟨by omega, by omega, h3, fun m hm1 hm2 => h4 m (by omega) hm2⟩

theorem pollLoop_none_of_never (pr : Nat → Except String (List Nat))
    (hnever : ∀ m, pollSuccess (pr m) = false) :
    ∀ (fuel i : Nat), pollLoop pr fuel i = none := by
  intro fuel
  induction fuel with
  | zero => intro i; rfl
  | succ fuel ih =>
    intro i
    simp only [pollLoop, hnever i, if_neg Bool.false_ne_true]
    exact ih (i + 1)

theorem pollLoop_congr (pr1 pr2 : Nat → Except String (List Nat))
    (hsame : ∀ m, pollSuccess (pr1 m) = pollSuccess (pr2 m)) :
    ∀ (fuel i : Nat), pollLoop pr1 fuel i = pollLoop pr2 fuel i := by
  intro fuel
  induction fuel with
  | zero => intro i; rfl
  | succ fuel ih =>
    intro i
    simp only [pollLoop, hsame i]
    by_cases h : pollSuccess (pr2 i) = true
    · simp [h]
    · simp only [if_neg h]
      exact ih (i + 1)

theorem fix_cr3Full_error_source (B : Cr3Backend) (optBase pid fuel : Nat)
    (e : String) (herr : fix_cr3Full B optBase pid fuel = some (Except.error e)) :
    B.dtbRead = Except.error e := by
  unfold fix_cr3Full at herr
  cases hp : pollLoop B.progressRead fuel 0 with
  | none => rw [hp] at herr; exact absurd herr (by simp)
  | some n =>
    rw [hp] at herr
    cases hd : B.dtbRead with
    | error e2 =>
      rw [hd] at herr
      simp only [Option.some.injEq, Except.error.injEq] at herr
      rw [herr]
    | ok text => rw [hd] at herr; exact absurd herr (by simp)

theorem fix_cr3Full_of_complete (B : Cr3Backend) (optBase pid fuel n : Nat)
    (text : List Char)
    (hp : pollLoop B.progressRead fuel 0 = some n)
    (hd : B.dtbRead = Except.ok text) :
    fix_cr3Full B optBase pid fuel =
      some (Except.ok
        (trialLoop (writeOkOf B optBase pid) B.resolves
          (parseCandidates text) none)) := by
  unfold fix_cr3Full
  rw [hp, hd]

/-! ### Claims -/

/-- C1: Report parsing — the candidate vector is the in-order concatenation
of the per-line candidates (duplicates kept, failing lines contributing
nothing and not aborting the rest), and a line contributes exactly one
candidate iff it has at least three whitespace tokens, its second token is
exactly "0", and its third token parses as a base-16 u64; the spec's
worked example holds. -/
theorem c1_report_parsing :
    (∀ text : List Char,
      parseCandidates text = (rustLines text).filterMap lineCandidate) ∧
    (∀ (line : List Char) (v : Nat),
      lineCandidate line = some v ↔
        3 ≤ (splitWhitespace line).length ∧
        (splitWhitespace line)[1]? = some (['0']) ∧
        ((splitWhitespace line)[2]?).bind from_str_radix_16 = some v) ∧
    parseCandidates ("2 0 1abc\n3 1 ffff\n4 0 2000\n".toList) = [0x1abc, 0x2000] :=
  ⟨parseCandidates_eq_filterMap, lineCandidate_eq_some_iff, by decide⟩

/-- C2: Trial-loop short circuit — when the (k+1)-th candidate (0-indexed
k) is the first to pass both the config write and the module resolution,
`fix_cr3` attempts exactly the first k+1 candidates in order, returns
success, and the override cell ends holding that candidate. -/
theorem c2_trial_short_circuit (B : Cr3Backend) (optBase pid fuel n k : Nat)
    (text : List Char)
    (hp : pollLoop B.progressRead fuel 0 = some n)
    (hd : B.dtbRead = Except.ok text)
    (hk : k < (parseCandidates text).length)
    (hw : writeOkOf B optBase pid ((parseCandidates text).getD k 0) = true)
    (hr : B.resolves ((parseCandidates text).getD k 0) = true)
    (hprev : ∀ j, j < k →
      ¬(writeOkOf B optBase pid ((parseCandidates text).getD j 0) = true ∧
        B.resolves ((parseCandidates text).getD j 0) = true)) :
    fix_cr3Full B optBase pid fuel =
      some (Except.ok
        ⟨true, (parseCandidates text).take (k + 1),
          some ((parseCandidates text).getD k 0)⟩) := by
  have hgetD : ∀ (j : Nat) (hj : j < (parseCandidates text).length),
      (parseCandidates text).getD j 0 = (parseCandidates text).get ⟨j, hj⟩ := by
    intro j hj
    rw [List.getD_eq_getElem?_getD, List.getElem?_eq_getElem hj]
    rfl
  rw [fix_cr3Full_of_complete B optBase pid fuel n text hp hd,
    trialLoop_first_success (writeOkOf B optBase pid) B.resolves
      (parseCandidates text) none k hk
      (by rw [← hgetD k hk]; exact hw)
      (by rw [← hgetD k hk]; exact hr)
      (fun j hj => by rw [← hgetD j (hj.trans hk)]; exact hprev j hj),
    hgetD k hk]

/-- Witness for C2: three candidates 0x10, 0x20, 0x30; every write
succeeds, only 0x20 resolves; the run attempts [0x10, 0x20] and commits
0x20. -/
theorem c2_trial_short_circuit_witness :
    fix_cr3Full backendFound 0 7 1 =
      some (Except.ok ⟨true, [16, 32], some 32⟩) := by
  have h := c2_trial_short_circuit backendFound 0 7 1 0 1
    ("1 0 10\n2 0 20\n3 0 30\n".toList) (by rfl) (by rfl) (by decide)
    (by decide) (by decide)
    (fun j hj => by
      have hj0 : j = 0 := by omega
      subst hj0
      decide)
  exact h.trans rfl

/-- C3: Exhaustion — when no candidate passes both probes, `fix_cr3`
attempts every candidate in order and returns `Ok(false)`, never `Err`;
the override cell ends holding the last successfully written candidate
(or stays untouched). -/
theorem c3_exhaustion (B : Cr3Backend) (optBase pid fuel n : Nat)
    (text : List Char)
    (hp : pollLoop B.progressRead fuel 0 = some n)
    (hd : B.dtbRead = Except.ok text)
    (hfail : ∀ d ∈ parseCandidates text,
      ¬(writeOkOf B optBase pid d = true ∧ B.resolves d = true)) :
    fix_cr3Full B optBase pid fuel =
      some (Except.ok
        ⟨false, parseCandidates text,
          lastWrite (writeOkOf B optBase pid) (parseCandidates text) none⟩) ∧
    fix_cr3 B optBase pid fuel = some (Except.ok false) := by
  have h1 : fix_cr3Full B optBase pid fuel =
      some (Except.ok
        ⟨false, parseCandidates text,
          lastWrite (writeOkOf B optBase pid) (parseCandidates text) none⟩) := by
    rw [fix_cr3Full_of_complete B optBase pid fuel n text hp hd,
      trialLoop_all_fail (writeOkOf B optBase pid) B.resolves
        (parseCandidates text) none hfail]
  exact ⟨h1, by unfold fix_cr3; rw [h1]; rfl⟩

/-- Witness for C3: candidates 0x10 and 0x20; only the write of 0x10
succeeds and nothing resolves; both candidates are attempted, the result
is `Ok(false)`, and the override cell holds 0x10. -/
theorem c3_exhaustion_witness :
    fix_cr3Full backendExhaust 0 7 1 =
      some (Except.ok ⟨false, [16, 32], some 16⟩) := by
  have h := c3_exhaustion backendExhaust 0 7 1 0
    ("1 0 10\n2 0 20\n".toList) (by rfl) (by rfl) (by decide)
  exact h.1.trans rfl

/-- C4: Empty report — when the fetched report parses to zero candidates,
`fix_cr3` returns `Ok(false)` with no config write attempted and the
override cell untouched. -/
theorem c4_empty_report (B : Cr3Backend) (optBase pid fuel n : Nat)
    (text : List Char)
    (hp : pollLoop B.progressRead fuel 0 = some n)
    (hd : B.dtbRead = Except.ok text)
    (hempty : parseCandidates text = []) :
    fix_cr3Full B optBase pid fuel =
      some (Except.ok ⟨false, [], none⟩) := by
  rw [fix_cr3Full_of_complete B optBase pid fuel n text hp hd, hempty]
  rfl

/-- Witness for C4: an empty report yields `Ok(false)` without any write
attempt. -/
theorem c4_empty_report_witness :
    fix_cr3Full backendEmpty 0 7 1 = some (Except.ok ⟨false, [], none⟩) :=
  c4_empty_report backendEmpty 0 7 1 0 [] (by rfl) (by rfl) (by decide)

/-- C5: Return contract — the only `Err` outcome of `fix_cr3` is the
dtb.txt fetch error, propagated unchanged; when the fetch succeeds, the
result (if the poll terminates) is `Ok` of exactly the trial loop's
success flag, so absence of a working candidate is `Ok(false)`, never
`Err`. -/
theorem c5_return_contract (B : Cr3Backend) (optBase pid fuel : Nat) :
    (∀ e, fix_cr3 B optBase pid fuel = some (Except.error e) →
      B.dtbRead = Except.error e) ∧
    (∀ text, B.dtbRead = Except.ok text →
      fix_cr3 B optBase pid fuel = none ∨
      fix_cr3 B optBase pid fuel =
        some (Except.ok
          (trialLoop (writeOkOf B optBase pid) B.resolves
            (parseCandidates text) none).found)) := by
  constructor
  · intro e he
    unfold fix_cr3 at he
    cases hf : fix_cr3Full B optBase pid fuel with
    | none => rw [hf] at he; exact absurd he (by simp)
    | some r =>
      rw [hf] at he
      cases r with
      | error e2 =>
        simp only [Option.map_some', Except.map, Option.some.injEq,
          Except.error.injEq] at he
        rw [he] at hf
        exact fix_cr3Full_error_source B optBase pid fuel e hf
      | ok t =>
        simp only [Option.map_some', Except.map, Option.some.injEq] at he
        exact absurd he (by simp)
  · intro text htext
    cases hp : pollLoop B.progressRead fuel 0 with
    | none =>
      left
      unfold fix_cr3 fix_cr3Full
      rw [hp]
      rfl
    | some n =>
      right
      unfold fix_cr3
      rw [fix_cr3Full_of_complete B optBase pid fuel n text hp htext]
      rfl

/-- Witness for C5: on a backend whose dtb.txt fetch fails with "io",
`fix_cr3` indeed returned that very error, and the contract recovers the
fetch failure from it. -/
theorem c5_return_contract_witness :
    backendFetchErr.dtbRead = Except.error "io" :=
  (c5_return_contract backendFetchErr 0 7 1).1 "io" (by rfl)

/-- C6: Query-layer error discipline — `find_process` returns `none`
exactly on a lookup failure, `find_base_address` collapses both the
no-such-process and the no-such-module failure to `none` (and only
those), `init` propagates the constructor outcome unchanged, and
`get_winver` has no fallible backend call and returns the build number
rendered as a string. -/
theorem c6_query_error_discipline :
    (∀ (pfn : String → Except String VmmProcessH) (name : String),
      find_process pfn name = none ↔ ∃ e, pfn name = Except.error e) ∧
    (∀ (ppid : Nat → Except String VmmProcessH)
      (gmb : VmmProcessH → String → Except String Nat)
      (pid : Nat) (m : String),
      find_base_address ppid gmb pid m = none ↔
        (∃ e, ppid pid = Except.error e) ∨
        (∃ p e, ppid pid = Except.ok p ∧ gmb p m = Except.error e)) ∧
    (∀ (α : Type) (r : Except String α), init r = r) ∧
    (∀ b : Nat, get_winver b = Except.ok (toString b)) := by
  refine ⟨?_, ?_, ?_, ?_⟩
  · intro pfn name
    cases h : pfn name with
    | ok p => simp [find_process, h]
    | error e => simp [find_process, h]
  · intro ppid gmb pid m
    cases h : ppid pid with
    | error e => simp [find_base_address, h]
    | ok p =>
      cases h2 : gmb p m with
      | error e => simp [find_base_address, h, h2]
      | ok base => simp [find_base_address, h, h2]
  · intro α r
    cases r <;> rfl
  · intro b
    rfl

/-- Witness for C6 at concrete backends: a failed name lookup yields
`none`, a failed module lookup yields `none`, a failed constructor is
passed through, and `get_winver` returns the rendered build number. -/
theorem c6_query_error_discipline_witness :
    find_process (fun _ => Except.error "nope") "smss.exe" = none ∧
    find_base_address (fun _ => Except.ok ⟨4⟩)
      (fun _ _ => Except.error "gone") 4 "smss.exe" = none ∧
    init (Except.error "load failed" : Except String VmmProcessH) =
      Except.error "load failed" ∧
    get_winver 19045 = Except.ok "19045" :=
  ⟨(c6_query_error_discipline.1 (fun _ => Except.error "nope") "smss.exe").mpr
      ⟨"nope", rfl⟩,
    (c6_query_error_discipline.2.1 (fun _ => Except.ok ⟨4⟩)
      (fun _ _ => Except.error "gone") 4 "smss.exe").mpr
      (Or.inr ⟨⟨4⟩, "gone", rfl, rfl⟩),
    c6_query_error_discipline.2.2.1 VmmProcessH (Except.error "load failed"),
    c6_query_error_discipline.2.2.2 19045⟩

/-- C7: Completion signal — the poll loop breaks at index n exactly when
the n-th read is the first whose result is a successful read of exactly 3
bytes (within the fuel window); a successful read of any other length and
a failed read both fail the break condition; and with no successful
3-byte read the loop never terminates, whatever the fuel. -/
theorem c7_completion_signal (pr : Nat → Except String (List Nat))
    (fuel i n : Nat) :
    (pollLoop pr fuel i = some n ↔
      i ≤ n ∧ n < i + fuel ∧ pollSuccess (pr n) = true ∧
      ∀ m, i ≤ m → m < n → pollSuccess (pr m) = false) ∧
    (∀ b : List Nat, pollSuccess (Except.ok b) = true ↔ b.length = 3) ∧
    (∀ e : String, pollSuccess (Except.error e) = false) ∧
    ((∀ m, pollSuccess (pr m) = false) → pollLoop pr fuel i = none) :=
  ⟨pollLoop_eq_some_iff pr fuel i n,
    fun b => by simp [pollSuccess],
    fun _ => rfl,
    fun h => pollLoop_none_of_never pr h fuel i⟩

/-- Witness for C7: reads of 0, 2 and then 3 bytes break exactly at the
3-byte read, and a backend that always fails the read never breaks. -/
theorem c7_completion_signal_witness :
    (0 ≤ 2 ∧ 2 < 0 + 5 ∧
      pollSuccess ((fun j => if j = 2 then Except.ok [5, 5, 5]
        else if j = 0 then Except.error "x"
        else Except.ok ([1, 2] : List Nat)) 2) = true ∧
      ∀ m, 0 ≤ m → m < 2 →
        pollSuccess ((fun j => if j = 2 then Except.ok [5, 5, 5]
          else if j = 0 then Except.error "x"
          else Except.ok ([1, 2] : List Nat)) m) = false) ∧
    pollLoop (fun _ => Except.error "e") 7 0 = none :=
  ⟨(c7_completion_signal
      (fun j => if j = 2 then Except.ok [5, 5, 5]
        else if j = 0 then Except.error "x"
        else Except.ok ([1, 2] : List Nat)) 5 0 2).1.mp (by decide),
    (c7_completion_signal (fun _ => Except.error "e") 7 0 0).2.2.2
      (fun _ => rfl)⟩

/-- C8: Implicit commit / dirty override — a completed `fix_cr3` run
leaves the override cell holding the last candidate whose write
succeeded among those attempted (the working root on success, the final
successfully-written candidate on exhaustion), and whenever any attempted
write succeeded the cell is not restored to its pre-call value. -/
theorem c8_implicit_commit (B : Cr3Backend) (optBase pid fuel : Nat)
    (text : List Char) (r : TrialOutcome)
    (hd : B.dtbRead = Except.ok text)
    (hrun : fix_cr3Full B optBase pid fuel = some (Except.ok r)) :
    r.finalDtb = lastWrite (writeOkOf B optBase pid) r.attempted none ∧
    ((∃ d ∈ r.attempted, writeOkOf B optBase pid d = true) →
      r.finalDtb ≠ none) := by
  have hr : r = trialLoop (writeOkOf B optBase pid) B.resolves
      (parseCandidates text) none := by
    cases hp : pollLoop B.progressRead fuel 0 with
    | none =>
      unfold fix_cr3Full at hrun
      rw [hp] at hrun
      exact absurd hrun (by simp)
    | some n =>
      rw [fix_cr3Full_of_complete B optBase pid fuel n text hp hd] at hrun
      simpa using hrun.symm
  have h1 : r.finalDtb = lastWrite (writeOkOf B optBase pid) r.attempted none := by
    rw [hr]
    exact trialLoop_finalDtb (writeOkOf B optBase pid) B.resolves
      (parseCandidates text) none
  refine ⟨h1, ?_⟩
  intro ⟨d, hdm, hdw⟩
  rw [h1]
  unfold lastWrite
  cases hlast : (r.attempted.filter (writeOkOf B optBase pid)).getLast? with
  | none =>
    have hnil := List.getLast?_eq_none_iff.mp hlast
    have : d ∈ r.attempted.filter (writeOkOf B optBase pid) :=
      List.mem_filter.mpr ⟨hdm, hdw⟩
    rw [hnil] at this
    exact absurd this (List.not_mem_nil d)
  | some x => simp

/-- Witness for C8: candidates 0x10, 0x20; the write succeeds only for
0x10, nothing resolves; after exhaustion the override cell still holds
0x10 — it is left dirty, not reverted. -/
theorem c8_implicit_commit_witness :
    ((⟨false, [16, 32], some 16⟩ : TrialOutcome).finalDtb =
      lastWrite (writeOkOf backendExhaust 0 7) [16, 32] none) ∧
    ((∃ d ∈ [16, 32], writeOkOf backendExhaust 0 7 d = true) →
      (⟨false, [16, 32], some 16⟩ : TrialOutcome).finalDtb ≠ none) :=
  c8_implicit_commit backendExhaust 0 7 1
    ("1 0 10\n2 0 20\n".toList) ⟨false, [16, 32], some 16⟩ (by rfl) (by rfl)

/-- C9: Progress-read errors are swallowed — a failed progress read never
satisfies the break condition, replacing every failed progress read by a
short successful read changes nothing observable about `fix_cr3`, and the
function's `Err` outcome can only originate from the dtb.txt fetch. -/
theorem c9_progress_errors_ignored (B : Cr3Backend) (optBase pid fuel : Nat) :
    (∀ n e, B.progressRead n = Except.error e →
      pollSuccess (B.progressRead n) = false) ∧
    fix_cr3Full
      ({ B with progressRead := fun n =>
          match B.progressRead n with
          | Except.error _ => Except.ok []
          | Except.ok b => Except.ok b } : Cr3Backend) optBase pid fuel =
      fix_cr3Full B optBase pid fuel ∧
    (∀ e, fix_cr3Full B optBase pid fuel = some (Except.error e) →
      B.dtbRead = Except.error e) := by
  refine ⟨?_, ?_, fix_cr3Full_error_source B optBase pid fuel⟩
  · intro n e h
    rw [h]
    rfl
  · unfold fix_cr3Full
    rw [pollLoop_congr
      (fun n =>
        match B.progressRead n with
        | Except.error _ => Except.ok []
        | Except.ok b => Except.ok b)
      B.progressRead
      (fun m => by cases h : B.progressRead m <;> simp [pollSuccess, h])
      fuel 0]
    rfl

/-- Witness for C9: a backend whose first progress read fails — the
failure is not a completion, and rewriting failed reads to empty reads
leaves the run's outcome identical. -/
theorem c9_progress_errors_ignored_witness :
    pollSuccess (backendPollErr.progressRead 0) = false ∧
    fix_cr3Full backendPollErrPatched 0 7 3 =
      fix_cr3Full backendPollErr 0 7 3 :=
  ⟨(c9_progress_errors_ignored backendPollErr 0 7 3).1 0 "x" (by rfl),
    (c9_progress_errors_ignored backendPollErr 0 7 3).2.1⟩

/-- C10: `get_winver` is infallible — for every build number it returns
`Ok` of its decimal rendering; no code path constructs an `Err`. -/
theorem c10_get_winver_infallible :
    ∀ b : Nat, get_winver b = Except.ok (toString b) :=
  fun _ => rfl

end DMALib
